import Mathlib

/-!
Shallow embedding of the `performance-metrics` harness
(`src/performance-metrics/src/main.rs`) and proofs of the specification
claims about it.

Modelling conventions:
* `f64` samples are idealised as rationals (`ℚ`); the one genuinely real
  operation, `f64::sqrt` in `std_deviation`, is modelled by `Real.sqrt`.
* `u32` fields are natural numbers; where the source performs `u32`
  arithmetic the embedding reduces modulo `2 ^ 32`.
* The probe functions (`performance_boot_time`, …) live in the external
  `performance_tests` module and are opaque per the spec; the embedding
  takes them as parameters of type `PerformanceTestControl → ℚ`.
* Fallible operations (`Option::unwrap`, `serde` results) become `Option`.
* The timeout-supervised executor's thread/channel machinery is modelled
  by an abstract arrival time for the completion message (`Option ℕ`,
  `none` = the probe blocks forever) together with a `panicked` flag for
  `catch_unwind` observing an abnormal termination.
-/

/-- Embedding of `enum FioOps` (external, used only as an opaque tag). -/
inductive FioOps where
  | Read
  | Write
  | RandomRead
  | RandomWrite
deriving DecidableEq, Repr

/-- Embedding of `struct PerformanceTestControl`. -/
structure PerformanceTestControl where
  test_time : ℕ
  test_iterations : ℕ
  queue_num : Option ℕ
  queue_size : Option ℕ
  net_rx : Option Bool
  fio_ops : Option FioOps
deriving DecidableEq, Repr

/-- Embedding of `impl Default for PerformanceTestControl`. -/
def PerformanceTestControl.default : PerformanceTestControl :=
  { test_time := 10
    test_iterations := 30
    queue_num := none
    queue_size := none
    net_rx := none
    fio_ops := none }

instance : Inhabited PerformanceTestControl := ⟨PerformanceTestControl.default⟩

/-- Embedding of `struct PerformanceTestResult` (std_dev is the result of a
`f64::sqrt`, modelled in `ℝ`). -/
structure PerformanceTestResult where
  name : String
  mean : ℚ
  std_dev : ℝ
  max : ℚ
  min : ℚ

/-- Embedding of `struct MetricsReport`. -/
structure MetricsReport where
  git_human_readable : String
  git_revision : String
  date : String
  results : List PerformanceTestResult

/-- Embedding of `struct PerformanceTest`: a named descriptor bundling a probe
function pointer and a control. -/
structure PerformanceTest where
  name : String
  func_ptr : PerformanceTestControl → ℚ
  control : PerformanceTestControl

/-- Embedding of `impl PartialEq for PerformanceTest`: equality solely by name. -/
def testEq (a b : PerformanceTest) : Bool :=
  a.name == b.name

/-- Embedding of `fn mean(data: &[f64]) -> Option<f64>`. -/
def mean (data : List ℚ) : Option ℚ :=
  if 0 < data.length then some (data.sum / (data.length : ℚ)) else none

/-- Embedding of `fn std_deviation(data: &[f64]) -> Option<f64>`: the variance
is the average of `diff * diff` over the mean produced by `mean` (its `unwrap`
is modelled by `Option.getD`, reached only under the same `count > 0` guard),
and the result is its square root. -/
noncomputable def std_deviation (data : List ℚ) : Option ℝ :=
  if 0 < data.length then
    let m := (mean data).getD 0
    let variance :=
      (data.map (fun value => let diff := m - value; diff * diff)).sum /
        (data.length : ℚ)
    some (Real.sqrt (variance : ℝ))
  else
    none

/-- Spec-side definition: the arithmetic average of the samples. -/
def arithmeticMean (data : List ℚ) : ℚ :=
  data.sum / (data.length : ℚ)

/-- Spec-side definition: the population variance (divide by `N`, not `N - 1`)
computed from the arithmetic mean. -/
def populationVariance (data : List ℚ) : ℚ :=
  (data.map (fun value => (arithmeticMean data - value) ^ 2)).sum /
    (data.length : ℚ)

/-- Spec-side definition: the population standard deviation, the square root of
the population variance. -/
noncomputable def populationStdDev (data : List ℚ) : ℝ :=
  Real.sqrt (populationVariance data : ℝ)

/-- Embedding of the sample-collection loop of `PerformanceTest::run`
(`for _ in 0..self.control.test_iterations { metrics.push((self.func_ptr)(&self.control)) }`),
instrumented with a counter that increments once per probe invocation. -/
def runLoop (f : PerformanceTestControl → ℚ) (c : PerformanceTestControl) :
    ℕ → List ℚ × ℕ
  | 0 => ([], 0)
  | n + 1 =>
    let prev := runLoop f c n
    (prev.1 ++ [f c], prev.2 + 1)

/-- Embedding of `metrics.clone().into_iter().reduce(f64::max)`: `Iterator::reduce`
folds the binary maximum from the left over a non-empty sequence. -/
def reduceMax (l : List ℚ) : Option ℚ :=
  match l with
  | [] => none
  | h :: t => some (t.foldl max h)

/-- Embedding of `metrics.clone().into_iter().reduce(f64::min)`. -/
def reduceMin (l : List ℚ) : Option ℚ :=
  match l with
  | [] => none
  | h :: t => some (t.foldl min h)

/-- Embedding of `PerformanceTest::run`: collect the samples, then reduce them;
each `.unwrap()` is modelled by the `Option` bind, so the result is `none`
exactly when one of the unwraps would panic. -/
noncomputable def PerformanceTest.run (t : PerformanceTest) :
    Option PerformanceTestResult := do
  let metrics := (runLoop t.func_ptr t.control t.control.test_iterations).1
  let m ← mean metrics
  let s ← std_deviation metrics
  let mx ← reduceMax metrics
  let mn ← reduceMin metrics
  return ⟨t.name, m, s, mx, mn⟩

/-- Embedding of `PerformanceTest::calc_timeout`: `u32` arithmetic
`(test_time + 20) * test_iterations`, reduced modulo `2 ^ 32`, then widened to
`u64` (the widening is the identity on the value). -/
def PerformanceTest.calc_timeout (t : PerformanceTest) : ℕ :=
  ((t.control.test_time + 20) % 2 ^ 32 * t.control.test_iterations) % 2 ^ 32

/-- Embedding of `HashSet::insert` on the registry: keyed by the
name-only equality `testEq`; when an equal element is already present the
existing entry is kept and the new one is dropped. -/
def hsInsert (s : List PerformanceTest) (t : PerformanceTest) :
    List PerformanceTest :=
  if s.any (fun x => testEq x t) then s else s ++ [t]

/-- Number of registry entries carrying a given name. -/
def countByName (s : List PerformanceTest) (n : String) : ℕ :=
  (s.filter (fun t => t.name == n)).length

/-- Embedding of the `TEST_LIST` registry build-out, parametric in the five
opaque probe functions from the external `performance_tests` module. -/
def TEST_LIST
    (performance_boot_time performance_boot_time_pmem performance_net_latency
      performance_net_throughput performance_block_io :
      PerformanceTestControl → ℚ) : List PerformanceTest :=
  hsInsert (hsInsert (hsInsert (hsInsert (hsInsert (hsInsert (hsInsert
    (hsInsert (hsInsert (hsInsert (hsInsert (hsInsert (hsInsert (hsInsert
      (hsInsert []
        ⟨"performance_boot_time", performance_boot_time,
          { PerformanceTestControl.default with test_time := 2, test_iterations := 10 }⟩)
        ⟨"performance_boot_time_pmem", performance_boot_time_pmem,
          { PerformanceTestControl.default with test_time := 2, test_iterations := 10 }⟩)
        ⟨"performance_virtio_net_latency", performance_net_latency,
          PerformanceTestControl.default⟩)
        ⟨"performance_virtio_net_throughput_bps_single_queue_rx", performance_net_throughput,
          { PerformanceTestControl.default with
              queue_num := some 1, queue_size := some 256, net_rx := some true }⟩)
        ⟨"performance_virtio_net_throughput_bps_single_queue_tx", performance_net_throughput,
          { PerformanceTestControl.default with
              queue_num := some 1, queue_size := some 256, net_rx := some false }⟩)
        ⟨"performance_virtio_net_throughput_bps_multi_queue_rx", performance_net_throughput,
          { PerformanceTestControl.default with
              queue_num := some 2, queue_size := some 1024, net_rx := some true }⟩)
        ⟨"performance_virtio_net_throughput_bps_multi_queue_tx", performance_net_throughput,
          { PerformanceTestControl.default with
              queue_num := some 2, queue_size := some 1024, net_rx := some false }⟩)
        ⟨"performance_block_io_bps_read", performance_block_io,
          { PerformanceTestControl.default with
              queue_num := some 1, queue_size := some 1024, fio_ops := some .Read }⟩)
        ⟨"performance_block_io_bps_write", performance_block_io,
          { PerformanceTestControl.default with
              queue_num := some 1, queue_size := some 1024, fio_ops := some .Write }⟩)
        ⟨"performance_block_io_bps_random_read", performance_block_io,
          { PerformanceTestControl.default with
              queue_num := some 1, queue_size := some 1024, fio_ops := some .RandomRead }⟩)
        ⟨"performance_block_io_bps_random_write", performance_block_io,
          { PerformanceTestControl.default with
              queue_num := some 1, queue_size := some 1024, fio_ops := some .RandomWrite }⟩)
        ⟨"performance_block_io_bps_multi_queue_read", performance_block_io,
          { PerformanceTestControl.default with
              queue_num := some 2, queue_size := some 1024, fio_ops := some .Read }⟩)
        ⟨"performance_block_io_bps_multi_queue_write", performance_block_io,
          { PerformanceTestControl.default with
              queue_num := some 2, queue_size := some 1024, fio_ops := some .Write }⟩)
        ⟨"performance_block_io_bps_multi_queue_random_read", performance_block_io,
          { PerformanceTestControl.default with
              queue_num := some 2, queue_size := some 1024, fio_ops := some .RandomRead }⟩)
        ⟨"performance_block_io_bps_multi_queue_random_write", performance_block_io,
          { PerformanceTestControl.default with
              queue_num := some 2, queue_size := some 1024, fio_ops := some .RandomWrite }⟩

/-- Embedding of `enum Error`. -/
inductive Error where
  | TestTimeout
  | TestFailed
deriving DecidableEq, Repr

/-- Embedding of `fn run_test_with_timetout`: the spawned thread runs
`catch_unwind(|| test.run())` and sends the outcome over a channel; the caller
blocks in `recv_timeout` for `calc_timeout` seconds. The channel is modelled by
the arrival time of the completion message (`none` = the probe blocks forever
and nothing is ever sent) and `panicked` models `catch_unwind` observing an
abnormal termination of the probe. A message arriving after the deadline is
never received: `recv_timeout` has already returned `Err`. -/
noncomputable def run_test_with_timetout (t : PerformanceTest)
    (arrival : Option ℕ) (panicked : Bool) :
    Except Error PerformanceTestResult :=
  match arrival with
  | none => .error .TestTimeout
  | some time =>
    if t.calc_timeout < time then .error .TestTimeout
    else if panicked then .error .TestFailed
    else
      match t.run with
      | some r => .ok r
      | none => .error .TestFailed

/-- Embedding of Rust `str::contains` with a `&str` pattern: a literal
substring match. -/
def strContains (s pat : String) : Bool :=
  decide (pat.toList <:+: s.toList)

/-- Driver loop over an already-filtered descriptor sequence, abstracted over
the executor's outcome per descriptor: `Ok` results are appended, the first
`Err` breaks out of the loop. -/
def driverLoop (exec : PerformanceTest → Except Error PerformanceTestResult) :
    List PerformanceTest → List PerformanceTestResult
  | [] => []
  | t :: rest =>
    match exec t with
    | .ok r => r :: driverLoop exec rest
    | .error _ => []

/-- Trace of the descriptors on which the driver loop actually invokes the
executor (in order), for stating that no further descriptors run after an
error. -/
def driverRan (exec : PerformanceTest → Except Error PerformanceTestResult) :
    List PerformanceTest → List PerformanceTest
  | [] => []
  | t :: rest =>
    match exec t with
    | .ok _ => t :: driverRan exec rest
    | .error _ => [t]

/-- Embedding of the loop body of `main`: iterate the registry, skip
descriptors whose name does not contain the filter, run the rest through the
executor, `break` on the first error. -/
def mainLoop (exec : PerformanceTest → Except Error PerformanceTestResult)
    (test_filter : String) :
    List PerformanceTest → List PerformanceTestResult
  | [] => []
  | t :: rest =>
    if strContains t.name test_filter then
      match exec t with
      | .ok r => r :: mainLoop exec test_filter rest
      | .error _ => []
    else
      mainLoop exec test_filter rest

/-- Report constructed by `main`: provenance metadata plus the results
collected by the loop. -/
def mainReport (exec : PerformanceTest → Except Error PerformanceTestResult)
    (test_filter : String) (tests : List PerformanceTest)
    (git_human_readable git_revision date : String) : MetricsReport :=
  { git_human_readable := git_human_readable
    git_revision := git_revision
    date := date
    results := mainLoop exec test_filter tests }

/-- Model of `serde_json::to_string_pretty(&metrics_report).unwrap()`: a total
serialisation of the report, parametric in the external floating-point
formatter `showR`. -/
def serializeReport (showR : ℝ → String) (m : MetricsReport) : String :=
  m.git_human_readable ++ "|" ++ m.git_revision ++ "|" ++ m.date ++ "|" ++
    String.intercalate ";"
      (m.results.map (fun r =>
        r.name ++ ":" ++ showR (r.mean : ℝ) ++ ":" ++ showR r.std_dev ++ ":" ++
          showR (r.max : ℝ) ++ ":" ++ showR (r.min : ℝ)))

/-- Serialised report emitted at the end of `main`. -/
def mainOutput (exec : PerformanceTest → Except Error PerformanceTestResult)
    (test_filter : String) (tests : List PerformanceTest)
    (git_human_readable git_revision date : String) (showR : ℝ → String) :
    String :=
  serializeReport showR
    (mainReport exec test_filter tests git_human_readable git_revision date)

section StatisticsProofs

lemma mean_of_ne_nil (data : List ℚ) (h : data ≠ []) :
    mean data = some (arithmeticMean data) := by
  have hpos : 0 < data.length := List.length_pos.mpr h
  simp [mean, arithmeticMean, hpos]

lemma std_deviation_of_ne_nil (data : List ℚ) (h : data ≠ []) :
    std_deviation data = some (populationStdDev data) := by
  have hpos : 0 < data.length := List.length_pos.mpr h
  have hsq : (fun value : ℚ => (arithmeticMean data - value) *
      (arithmeticMean data - value)) =
      fun value : ℚ => (arithmeticMean data - value) ^ 2 := by
    funext v
    ring
  simp only [std_deviation, if_pos hpos, mean_of_ne_nil data h, Option.getD_some,
    populationStdDev, populationVariance, hsq]

/-- C2: on a non-empty sample list, `mean` returns the arithmetic average and
`std_deviation` returns the population standard deviation (divide by `N`)
computed from that same mean; on the empty list both return `none`. -/
theorem mean_and_std_deviation_correct (data : List ℚ) :
    (data ≠ [] →
      mean data = some (arithmeticMean data) ∧
      std_deviation data = some (populationStdDev data)) ∧
    (data = [] → mean data = none ∧ std_deviation data = none) := by
  refine ⟨fun h => ⟨mean_of_ne_nil data h, std_deviation_of_ne_nil data h⟩,
    fun h => ?_⟩
  subst h
  simp [mean, std_deviation]

/-- Witness for C2 on the concrete samples `[1, 3]`. -/
theorem mean_and_std_deviation_correct_witness :
    mean [(1 : ℚ), 3] = some (arithmeticMean [(1 : ℚ), 3]) ∧
    std_deviation [(1 : ℚ), 3] = some (populationStdDev [(1 : ℚ), 3]) :=
  (mean_and_std_deviation_correct [(1 : ℚ), 3]).1 (by decide)

lemma foldl_max_bounds (l : List ℚ) (a : ℚ) :
    a ≤ l.foldl max a ∧ ∀ x ∈ l, x ≤ l.foldl max a := by
  induction l generalizing a with
  | nil => simp
  | cons h t ih =>
    obtain ⟨h1, h2⟩ := ih (max a h)
    refine ⟨le_trans (le_max_left a h) h1, ?_⟩
    intro x hx
    rcases List.mem_cons.mp hx with rfl | hx
    · exact le_trans (le_max_right a x) h1
    · exact h2 x hx

lemma foldl_min_bounds (l : List ℚ) (a : ℚ) :
    l.foldl min a ≤ a ∧ ∀ x ∈ l, l.foldl min a ≤ x := by
  induction l generalizing a with
  | nil => simp
  | cons h t ih =>
    obtain ⟨h1, h2⟩ := ih (min a h)
    refine ⟨le_trans h1 (min_le_left a h), ?_⟩
    intro x hx
    rcases List.mem_cons.mp hx with rfl | hx
    · exact le_trans h1 (min_le_right a x)
    · exact h2 x hx

/-- C8: on a non-empty sample list the pairwise reductions `reduceMax` and
`reduceMin` return values bounding every element: `min ≤ x ≤ max`. -/
theorem reduce_max_min_bound (l : List ℚ) (h : l ≠ []) :
    ∃ M m, reduceMax l = some M ∧ reduceMin l = some m ∧
      ∀ x ∈ l, m ≤ x ∧ x ≤ M := by
  obtain ⟨a, t, rfl⟩ := List.exists_cons_of_ne_nil h
  refine ⟨t.foldl max a, t.foldl min a, rfl, rfl, ?_⟩
  intro x hx
  rcases List.mem_cons.mp hx with rfl | hx
  · exact ⟨(foldl_min_bounds t x).1, (foldl_max_bounds t x).1⟩
  · exact ⟨(foldl_min_bounds t a).2 x hx, (foldl_max_bounds t a).2 x hx⟩

/-- Witness for C8 on the concrete samples `[2, 1, 3]`. -/
theorem reduce_max_min_bound_witness :
    ∃ M m, reduceMax [(2 : ℚ), 1, 3] = some M ∧
      reduceMin [(2 : ℚ), 1, 3] = some m ∧
      ∀ x ∈ [(2 : ℚ), 1, 3], m ≤ x ∧ x ≤ M :=
  reduce_max_min_bound [(2 : ℚ), 1, 3] (by decide)

end StatisticsProofs

section RunProofs

/-- C7: the sample-collection loop of `run` with iteration count `N` invokes
the probe exactly `N` times (the instrumentation counter equals `N`), produces
exactly `N` samples, and every sample is the probe's value on the descriptor's
control parameters. -/
theorem run_invokes_probe_exactly_n (f : PerformanceTestControl → ℚ)
    (c : PerformanceTestControl) (n : ℕ) :
    (runLoop f c n).2 = n ∧ (runLoop f c n).1.length = n ∧
      ∀ x ∈ (runLoop f c n).1, x = f c := by
  induction n with
  | zero => simp [runLoop]
  | succ k ih =>
    obtain ⟨h1, h2, h3⟩ := ih
    refine ⟨by simp [runLoop, h1], by simp [runLoop, h2], ?_⟩
    intro x hx
    simp only [runLoop, List.mem_append, List.mem_singleton] at hx
    rcases hx with hx | rfl
    · exact h3 x hx
    · rfl

/-- Witness for C7 with a constant probe, the default control and `N = 2`. -/
theorem run_invokes_probe_exactly_n_witness :
    (5 : ℚ) ∈ (runLoop (fun _ => (5 : ℚ)) PerformanceTestControl.default 2).1 ∧
    (5 : ℚ) = (fun _ : PerformanceTestControl => (5 : ℚ))
      PerformanceTestControl.default :=
  ⟨by decide,
    (run_invokes_probe_exactly_n (fun _ => (5 : ℚ))
      PerformanceTestControl.default 2).2.2 5 (by decide)⟩

end RunProofs

section RegistryProofs

/-- Explicit membership of the registry: the fifteen descriptor names are
pairwise distinct, so the fifteen `insert`s all succeed and the registry is the
insertion sequence itself. -/
def TEST_LIST_elems
    (performance_boot_time performance_boot_time_pmem performance_net_latency
      performance_net_throughput performance_block_io :
      PerformanceTestControl → ℚ) : List PerformanceTest :=
  [⟨"performance_boot_time", performance_boot_time,
      { PerformanceTestControl.default with test_time := 2, test_iterations := 10 }⟩,
   ⟨"performance_boot_time_pmem", performance_boot_time_pmem,
      { PerformanceTestControl.default with test_time := 2, test_iterations := 10 }⟩,
   ⟨"performance_virtio_net_latency", performance_net_latency,
      PerformanceTestControl.default⟩,
   ⟨"performance_virtio_net_throughput_bps_single_queue_rx", performance_net_throughput,
      { PerformanceTestControl.default with
          queue_num := some 1, queue_size := some 256, net_rx := some true }⟩,
   ⟨"performance_virtio_net_throughput_bps_single_queue_tx", performance_net_throughput,
      { PerformanceTestControl.default with
          queue_num := some 1, queue_size := some 256, net_rx := some false }⟩,
   ⟨"performance_virtio_net_throughput_bps_multi_queue_rx", performance_net_throughput,
      { PerformanceTestControl.default with
          queue_num := some 2, queue_size := some 1024, net_rx := some true }⟩,
   ⟨"performance_virtio_net_throughput_bps_multi_queue_tx", performance_net_throughput,
      { PerformanceTestControl.default with
          queue_num := some 2, queue_size := some 1024, net_rx := some false }⟩,
   ⟨"performance_block_io_bps_read", performance_block_io,
      { PerformanceTestControl.default with
          queue_num := some 1, queue_size := some 1024, fio_ops := some .Read }⟩,
   ⟨"performance_block_io_bps_write", performance_block_io,
      { PerformanceTestControl.default with
          queue_num := some 1, queue_size := some 1024, fio_ops := some .Write }⟩,
   ⟨"performance_block_io_bps_random_read", performance_block_io,
      { PerformanceTestControl.default with
          queue_num := some 1, queue_size := some 1024, fio_ops := some .RandomRead }⟩,
   ⟨"performance_block_io_bps_random_write", performance_block_io,
      { PerformanceTestControl.default with
          queue_num := some 1, queue_size := some 1024, fio_ops := some .RandomWrite }⟩,
   ⟨"performance_block_io_bps_multi_queue_read", performance_block_io,
      { PerformanceTestControl.default with
          queue_num := some 2, queue_size := some 1024, fio_ops := some .Read }⟩,
   ⟨"performance_block_io_bps_multi_queue_write", performance_block_io,
      { PerformanceTestControl.default with
          queue_num := some 2, queue_size := some 1024, fio_ops := some .Write }⟩,
   ⟨"performance_block_io_bps_multi_queue_random_read", performance_block_io,
      { PerformanceTestControl.default with
          queue_num := some 2, queue_size := some 1024, fio_ops := some .RandomRead }⟩,
   ⟨"performance_block_io_bps_multi_queue_random_write", performance_block_io,
      { PerformanceTestControl.default with
          queue_num := some 2, queue_size := some 1024, fio_ops := some .RandomWrite }⟩]

lemma TEST_LIST_eq
    (p₁ p₂ p₃ p₄ p₅ : PerformanceTestControl → ℚ) :
    TEST_LIST p₁ p₂ p₃ p₄ p₅ = TEST_LIST_elems p₁ p₂ p₃ p₄ p₅ := by
  simp [TEST_LIST, TEST_LIST_elems, hsInsert, testEq]

lemma runLoop_length (f : PerformanceTestControl → ℚ)
    (c : PerformanceTestControl) (n : ℕ) : (runLoop f c n).1.length = n := by
  induction n with
  | zero => simp [runLoop]
  | succ k ih => simp [runLoop, ih]

lemma run_isSome_of_pos (t : PerformanceTest)
    (h : 0 < t.control.test_iterations) : t.run.isSome := by
  have hne : (runLoop t.func_ptr t.control t.control.test_iterations).1 ≠ [] := by
    intro hnil
    have := runLoop_length t.func_ptr t.control t.control.test_iterations
    rw [hnil] at this
    simp at this
    omega
  obtain ⟨a, l, hm⟩ :=
    List.exists_cons_of_ne_nil hne
  simp [PerformanceTest.run, hm, mean, std_deviation, reduceMax, reduceMin]

/-- C5: every descriptor registered in `TEST_LIST` has iteration count at
least one, so the sample vector built by `run` is non-empty and none of the
`unwrap`s of `mean`, `std_deviation`, `max` and `min` fails (`run` returns
`some`). -/
theorem registered_iterations_pos_run_total
    (p₁ p₂ p₃ p₄ p₅ : PerformanceTestControl → ℚ) (t : PerformanceTest)
    (ht : t ∈ TEST_LIST p₁ p₂ p₃ p₄ p₅) :
    1 ≤ t.control.test_iterations ∧ t.run.isSome := by
  rw [TEST_LIST_eq] at ht
  have hpos : 1 ≤ t.control.test_iterations := by
    simp only [TEST_LIST_elems, List.mem_cons, List.not_mem_nil, or_false] at ht
    rcases ht with rfl | rfl | rfl | rfl | rfl | rfl | rfl | rfl | rfl | rfl |
      rfl | rfl | rfl | rfl | rfl <;>
    simp [PerformanceTestControl.default]
  exact ⟨hpos, run_isSome_of_pos t hpos⟩

/-- Witness for C5 at the boot-time descriptor with constant probes. -/
theorem registered_iterations_pos_run_total_witness :
    1 ≤ (⟨"performance_boot_time", fun _ => (0 : ℚ),
      { PerformanceTestControl.default with test_time := 2, test_iterations := 10 }⟩ :
        PerformanceTest).control.test_iterations ∧
    (⟨"performance_boot_time", fun _ => (0 : ℚ),
      { PerformanceTestControl.default with test_time := 2, test_iterations := 10 }⟩ :
        PerformanceTest).run.isSome :=
  registered_iterations_pos_run_total
    (fun _ => (0 : ℚ)) (fun _ => (0 : ℚ)) (fun _ => (0 : ℚ)) (fun _ => (0 : ℚ))
    (fun _ => (0 : ℚ)) _
    (by rw [TEST_LIST_eq]; exact List.mem_cons_self _ _)

/-- C4: the computed timeout is the exact product `(test_time + 20) *
test_iterations` whenever the `u32` arithmetic does not overflow; this holds
for every registered descriptor, and a descriptor with `test_time = 2` and
`test_iterations = 10` gets timeout `(2 + 20) * 10 = 220`. -/
theorem calc_timeout_exact :
    (∀ t : PerformanceTest, t.control.test_time + 20 < 2 ^ 32 →
      (t.control.test_time + 20) * t.control.test_iterations < 2 ^ 32 →
      t.calc_timeout = (t.control.test_time + 20) * t.control.test_iterations) ∧
    (∀ p₁ p₂ p₃ p₄ p₅ : PerformanceTestControl → ℚ,
      ∀ t ∈ TEST_LIST p₁ p₂ p₃ p₄ p₅,
      t.calc_timeout = (t.control.test_time + 20) * t.control.test_iterations) ∧
    (∀ t : PerformanceTest, t.control.test_time = 2 →
      t.control.test_iterations = 10 → t.calc_timeout = 220) := by
  refine ⟨fun t h1 h2 => ?_, fun p₁ p₂ p₃ p₄ p₅ t ht => ?_, fun t h1 h2 => ?_⟩
  · rw [PerformanceTest.calc_timeout, Nat.mod_eq_of_lt h1, Nat.mod_eq_of_lt h2]
  · rw [TEST_LIST_eq] at ht
    simp only [TEST_LIST_elems, List.mem_cons, List.not_mem_nil, or_false] at ht
    rcases ht with rfl | rfl | rfl | rfl | rfl | rfl | rfl | rfl | rfl | rfl |
      rfl | rfl | rfl | rfl | rfl <;>
    simp [PerformanceTest.calc_timeout, PerformanceTestControl.default]
  · rw [PerformanceTest.calc_timeout, h1, h2]
    norm_num

/-- Witness for C4 at a descriptor with `test_time = 2`, `test_iterations = 10`. -/
theorem calc_timeout_exact_witness :
    (⟨"performance_boot_time", fun _ => (0 : ℚ),
      { PerformanceTestControl.default with test_time := 2, test_iterations := 10 }⟩ :
        PerformanceTest).calc_timeout = 220 :=
  calc_timeout_exact.2.2 _ rfl rfl

end RegistryProofs

section DedupProofs

lemma any_testEq_iff (s : List PerformanceTest) (d : PerformanceTest) :
    (s.any fun x => testEq x d) = true ↔ 0 < countByName s d.name := by
  simp [List.any_eq_true, testEq, countByName, List.length_pos_iff_exists_mem,
    List.mem_filter]

/-- C6: descriptor equality is by name alone, and inserting two descriptors
with the same name (even with different probes or controls) leaves exactly one
entry of that name in the registry — the first one inserted. -/
theorem registry_dedups_by_name :
    (∀ a b : PerformanceTest, testEq a b = true ↔ a.name = b.name) ∧
    (∀ (s : List PerformanceTest) (d₁ d₂ : PerformanceTest),
      d₁.name = d₂.name →
      countByName (hsInsert (hsInsert s d₁) d₂) d₁.name =
        max (countByName s d₁.name) 1) ∧
    (∀ d₁ d₂ : PerformanceTest, d₁.name = d₂.name →
      hsInsert (hsInsert [] d₁) d₂ = [d₁]) := by
  have heqname : ∀ a b : PerformanceTest, testEq a b = true ↔ a.name = b.name := by
    intro a b
    simp [testEq]
  refine ⟨heqname, fun s d₁ d₂ h => ?_, fun d₁ d₂ h => ?_⟩
  · by_cases hc : (s.any fun x => testEq x d₁) = true
    · have hc2 : (s.any fun x => testEq x d₂) = true := by
        simpa only [testEq, h] using hc
      have hpos : 0 < countByName s d₁.name := (any_testEq_iff s d₁).mp hc
      simp only [hsInsert, if_pos hc, if_pos hc2]
      omega
    · have hc0 : countByName s d₁.name = 0 := by
        by_contra hne
        exact hc ((any_testEq_iff s d₁).mpr (Nat.pos_of_ne_zero hne))
      have h1 : hsInsert s d₁ = s ++ [d₁] := if_neg hc
      have hc2 : ((s ++ [d₁]).any fun x => testEq x d₂) = true := by
        simp only [List.any_append, List.any_cons, List.any_nil, Bool.or_false,
          Bool.or_eq_true]
        exact Or.inr ((heqname d₁ d₂).mpr h)
      have hone : countByName [d₁] d₁.name = 1 := by simp [countByName]
      have happ : countByName (s ++ [d₁]) d₁.name =
          countByName s d₁.name + countByName [d₁] d₁.name := by
        simp [countByName, List.filter_append]
      rw [h1, hsInsert, if_pos hc2, happ, hone, hc0]
      decide
  · have h1 : hsInsert [] d₁ = [d₁] := by
      simp [hsInsert]
    rw [h1, hsInsert, if_pos]
    simp only [List.any_cons, List.any_nil, Bool.or_false]
    exact (heqname d₁ d₂).mpr h

/-- Witness for C6: two descriptors named "x" with different probes and
controls collapse to the single first entry. -/
theorem registry_dedups_by_name_witness :
    hsInsert (hsInsert []
        ⟨"x", fun _ => (1 : ℚ), PerformanceTestControl.default⟩)
        ⟨"x", fun _ => (2 : ℚ),
          { PerformanceTestControl.default with test_time := 5 }⟩ =
      [⟨"x", fun _ => (1 : ℚ), PerformanceTestControl.default⟩] :=
  registry_dedups_by_name.2.2 _ _ rfl

end DedupProofs

section ExecutorProofs

/-- C3: the executor's error is always `TestTimeout` or `TestFailed`; a probe
whose completion message never arrives, or arrives only after the computed
deadline, is reported as `TestTimeout`; a probe that terminates abnormally
(panics) within the deadline is reported as `TestFailed`. -/
theorem executor_timeout_vs_failed :
    (∀ (t : PerformanceTest) (p : Bool),
      run_test_with_timetout t none p = .error .TestTimeout) ∧
    (∀ (t : PerformanceTest) (time : ℕ) (p : Bool), t.calc_timeout < time →
      run_test_with_timetout t (some time) p = .error .TestTimeout) ∧
    (∀ (t : PerformanceTest) (time : ℕ), time ≤ t.calc_timeout →
      run_test_with_timetout t (some time) true = .error .TestFailed) ∧
    (∀ (t : PerformanceTest) (arrival : Option ℕ) (p : Bool) (e : Error),
      run_test_with_timetout t arrival p = .error e →
      e = .TestTimeout ∨ e = .TestFailed) := by
  refine ⟨fun t p => rfl, fun t time p h => ?_, fun t time h => ?_,
    fun t arrival p e _ => ?_⟩
  · simp [run_test_with_timetout, h]
  · simp [run_test_with_timetout, Nat.not_lt.mpr h]
  · cases e
    · exact Or.inl rfl
    · exact Or.inr rfl

/-- Witness for C3: for the boot-time control the deadline is 220, so a
message at time 221 yields `TestTimeout` and a panic observed at time 5 yields
`TestFailed`. -/
theorem executor_timeout_vs_failed_witness :
    run_test_with_timetout
        (⟨"performance_boot_time", fun _ => (0 : ℚ),
          { PerformanceTestControl.default with test_time := 2, test_iterations := 10 }⟩ :
            PerformanceTest) (some 221) false = .error .TestTimeout ∧
    run_test_with_timetout
        (⟨"performance_boot_time", fun _ => (0 : ℚ),
          { PerformanceTestControl.default with test_time := 2, test_iterations := 10 }⟩ :
            PerformanceTest) (some 5) true = .error .TestFailed :=
  ⟨executor_timeout_vs_failed.2.1 _ 221 false (by decide),
    executor_timeout_vs_failed.2.2.1 _ 5 (by decide)⟩

end ExecutorProofs

section NameProofs

/-- C10: a successful `run` of a descriptor produces a result whose `name`
field equals the descriptor's name. -/
theorem run_result_names_descriptor (t : PerformanceTest)
    (r : PerformanceTestResult) (h : t.run = some r) : r.name = t.name := by
  simp only [PerformanceTest.run, bind, Option.bind_eq_some, Option.pure_def,
    Option.some.injEq] at h
  obtain ⟨m, _, s, _, mx, _, mn, _, h⟩ := h
  rw [← h]

/-- Witness for C10 at a concrete single-iteration descriptor named "demo". -/
theorem run_result_names_descriptor_witness :
    ∃ r, (⟨"demo", fun _ => (1 : ℚ),
        { PerformanceTestControl.default with test_iterations := 1 }⟩ :
          PerformanceTest).run = some r ∧
      r.name = "demo" :=
  have h : (⟨"demo", fun _ => (1 : ℚ),
      { PerformanceTestControl.default with test_iterations := 1 }⟩ :
        PerformanceTest).run.isSome :=
    run_isSome_of_pos _ (by decide)
  ⟨_, (Option.some_get h).symm,
    run_result_names_descriptor _ _ (Option.some_get h).symm⟩

end NameProofs

section DriverProofs

lemma driverLoop_append_of_ok
    (exec : PerformanceTest → Except Error PerformanceTestResult)
    (pre rest : List PerformanceTest)
    (h : ∀ x ∈ pre, ∃ r, exec x = .ok r) :
    driverLoop exec (pre ++ rest) =
      driverLoop exec pre ++ driverLoop exec rest ∧
    driverRan exec (pre ++ rest) = pre ++ driverRan exec rest := by
  induction pre with
  | nil => simp [driverLoop, driverRan]
  | cons a l ih =>
    obtain ⟨r, hr⟩ := h a (List.mem_cons_self a l)
    obtain ⟨ih1, ih2⟩ := ih (fun x hx => h x (List.mem_cons_of_mem a hx))
    simp [driverLoop, driverRan, hr, ih1, ih2]

lemma driverLoop_cons_error
    (exec : PerformanceTest → Except Error PerformanceTestResult)
    (t : PerformanceTest) (post : List PerformanceTest) (err : Error)
    (h : exec t = .error err) :
    driverLoop exec (t :: post) = [] ∧ driverRan exec (t :: post) = [t] := by
  simp [driverLoop, driverRan, h]

lemma mainLoop_eq_driverLoop_filter
    (exec : PerformanceTest → Except Error PerformanceTestResult)
    (f : String) (l : List PerformanceTest) :
    mainLoop exec f l =
      driverLoop exec (l.filter fun t => strContains t.name f) := by
  induction l with
  | nil => rfl
  | cons a t ih =>
    by_cases hc : strContains a.name f
    · cases hexec : exec a <;>
      simp [mainLoop, driverLoop, List.filter_cons, hc, hexec, ih]
    · simp [mainLoop, List.filter_cons, hc, ih]

/-- C1: the driver loop appends each `Ok` result and continues; on the first
`Err` it stops immediately — no descriptor after the failing one is run — and
the results already collected are preserved; the emitted output is the
serialisation of the report holding exactly the loop's collected results. -/
theorem driver_loop_fail_fast :
    (∀ (exec : PerformanceTest → Except Error PerformanceTestResult)
      (t : PerformanceTest) (rest : List PerformanceTest)
      (r : PerformanceTestResult), exec t = .ok r →
      driverLoop exec (t :: rest) = r :: driverLoop exec rest ∧
      driverRan exec (t :: rest) = t :: driverRan exec rest) ∧
    (∀ (exec : PerformanceTest → Except Error PerformanceTestResult)
      (pre : List PerformanceTest) (t : PerformanceTest)
      (post : List PerformanceTest) (err : Error),
      (∀ x ∈ pre, ∃ r, exec x = .ok r) → exec t = .error err →
      driverLoop exec (pre ++ t :: post) = driverLoop exec pre ∧
      driverRan exec (pre ++ t :: post) = pre ++ [t]) ∧
    (∀ exec (f : String) (l : List PerformanceTest)
      (g rev d : String) (showR : ℝ → String),
      mainOutput exec f l g rev d showR =
        serializeReport showR
          ⟨g, rev, d, driverLoop exec (l.filter fun x => strContains x.name f)⟩) := by
  refine ⟨fun exec t rest r h => by simp [driverLoop, driverRan, h],
    fun exec pre t post err hpre herr => ?_, fun exec f l g rev d showR => ?_⟩
  · obtain ⟨h1, h2⟩ := driverLoop_append_of_ok exec pre (t :: post) hpre
    obtain ⟨h3, h4⟩ := driverLoop_cons_error exec t post err herr
    rw [h1, h3, h2, h4]
    simp
  · rw [mainOutput, mainReport, mainLoop_eq_driverLoop_filter]

/-- Witness for C1: with descriptors a, b, c where a succeeds and b fails, the
loop collects a's result only and never runs c. -/
theorem driver_loop_fail_fast_witness :
    driverLoop
        (fun t => if t.name = "a" then
          .ok ⟨"a", 0, 0, 0, 0⟩ else .error .TestFailed)
        ([⟨"a", fun _ => (0 : ℚ), PerformanceTestControl.default⟩] ++
          ⟨"b", fun _ => (0 : ℚ), PerformanceTestControl.default⟩ ::
          [⟨"c", fun _ => (0 : ℚ), PerformanceTestControl.default⟩]) =
      driverLoop
        (fun t => if t.name = "a" then
          .ok ⟨"a", 0, 0, 0, 0⟩ else .error .TestFailed)
        [⟨"a", fun _ => (0 : ℚ), PerformanceTestControl.default⟩] ∧
    driverRan
        (fun t => if t.name = "a" then
          .ok ⟨"a", 0, 0, 0, 0⟩ else .error .TestFailed)
        ([⟨"a", fun _ => (0 : ℚ), PerformanceTestControl.default⟩] ++
          ⟨"b", fun _ => (0 : ℚ), PerformanceTestControl.default⟩ ::
          [⟨"c", fun _ => (0 : ℚ), PerformanceTestControl.default⟩]) =
      [⟨"a", fun _ => (0 : ℚ), PerformanceTestControl.default⟩] ++
        [⟨"b", fun _ => (0 : ℚ), PerformanceTestControl.default⟩] :=
  driver_loop_fail_fast.2.1 _ _ _ _ .TestFailed
    (by
      intro x hx
      rw [List.mem_singleton] at hx
      subst hx
      exact ⟨_, rfl⟩)
    (by rfl)

/-- C9: the filter keeps exactly the descriptors whose name contains the
filter string as a literal substring; the empty filter keeps everything; a
filter matching no name produces an empty result list, and the emitted report
is still the serialisation of a report with zero results. -/
theorem filter_substring_semantics :
    (∀ s pat : String, strContains s pat = true ↔ pat.toList <:+: s.toList) ∧
    (∀ l : List PerformanceTest,
      (l.filter fun t => strContains t.name "") = l) ∧
    (∀ (exec : PerformanceTest → Except Error PerformanceTestResult)
      (f : String) (l : List PerformanceTest) (g rev d : String)
      (showR : ℝ → String),
      (∀ t ∈ l, strContains t.name f = false) →
      mainLoop exec f l = [] ∧
      mainOutput exec f l g rev d showR =
        serializeReport showR ⟨g, rev, d, []⟩) := by
  have hiff : ∀ s pat : String, strContains s pat = true ↔
      pat.toList <:+: s.toList := by
    intro s pat
    simp [strContains]
  refine ⟨hiff, fun l => ?_, fun exec f l g rev d showR hnone => ?_⟩
  · refine List.filter_eq_self.mpr fun a _ => ?_
    exact (hiff a.name "").mpr List.nil_infix
  · have hempty : (l.filter fun t => strContains t.name f) = [] :=
      List.filter_eq_nil_iff.mpr fun a ha => by simp [hnone a ha]
    have hmain : mainLoop exec f l = [] := by
      rw [mainLoop_eq_driverLoop_filter, hempty]
      rfl
    exact ⟨hmain, by rw [mainOutput, mainReport, hmain]⟩

/-- Witness for C9: a filter string matching no registered name yields an
empty result list and the serialised empty report. -/
theorem filter_substring_semantics_witness :
    mainLoop (fun _ => .error .TestTimeout) "zzz"
        [⟨"a", fun _ => (0 : ℚ), PerformanceTestControl.default⟩] = [] ∧
    mainOutput (fun _ => .error .TestTimeout) "zzz"
        [⟨"a", fun _ => (0 : ℚ), PerformanceTestControl.default⟩]
        "g" "r" "d" (fun _ => "") =
      serializeReport (fun _ => "") ⟨"g", "r", "d", []⟩ :=
  filter_substring_semantics.2.2 _ "zzz" _ "g" "r" "d" _ (by decide)

end DriverProofs
